import Mathlib

/- Verification development for the DynUI component library: a shallow
embedding, in Lean, of the parts of the library that the checked properties
talk about, followed by the theorems settling those properties.

Embedded here are:
the input-masking utilities of the text input (applyMask, removeMask);
the design-token key sanitizer (sanitizeTokenKey);
the inline validators of the dual-mode input and of the two checkbox
variants, together with their change and key handlers and the indeterminate
synchronisation effects;
the useEnhancedValidation hook (rule evaluation, the validate pass, and the
derived error list); and
the enhanced data table (selection state, select-all reporting, the
filter, sort, paginate pipeline, and the page count).

Strings are embedded as Lean String or List Char.  JavaScript runtime values
reaching the generic validation hook are embedded as the inductive JSValue.
Regular-expression and URL tests, which live in the RegExp and URL engines of
the host, are passed in as function parameters.  Functions that may throw are
embedded with Except results.  Callback invocations (onChange, onSelect) are
embedded as returned report values. -/

/-- JavaScript truthiness of an optional string prop: `undefined` and `""`
are falsy, every other string is truthy. -/
def optTruthy : Option String → Bool
  | none => false
  | some s => s != ""

/-- Masking, from the dual-mode input (`dyn-input.tsx` installer template and
the identical copy in `tmp/dyn-input-enhanced.tsx`).  The function
`applyMask value mask` is the loop
`for (i...; i < mask.length && valueIndex < value.length; i++)`:
each `9` consumes a digit, each `A` consumes a letter upper-cased, each `*`
consumes any character, any other mask character is copied through literally,
and a placeholder mismatch `break`s. -/
def applyMask : List Char → List Char → List Char
  | _, [] => []
  | [], _ => []
  | v :: vs, m :: ms =>
    if m = '9' then
      (if v.isDigit then v :: applyMask vs ms else [])
    else if m = 'A' then
      (if v.isAlpha then v.toUpper :: applyMask vs ms else [])
    else if m = '*' then
      v :: applyMask vs ms
    else
      m :: applyMask (v :: vs) ms

/-- The set of literal (non-placeholder) characters of a mask:
`[...mask].filter(char => !/[9A*]/.test(char))`. -/
def maskLiteralChars (mask : List Char) : List Char :=
  mask.filter (fun c => !(c = '9' || c = 'A' || c = '*'))

/-- The function `removeMask value mask`, which is
`value.split('').filter(char => !maskChars.has(char)).join('')`. -/
def removeMask (value mask : List Char) : List Char :=
  value.filter (fun c => !(maskLiteralChars mask).contains c)

/-- The phone mask used by the round-trip property of the spec. -/
def phoneMask : List Char := "(999) 999-9999".toList

/-- Character class `[a-z0-9_-]` kept by the replacement step of the
design-token key sanitizer in `css-generator.ts`. -/
def jsAllowedChar (c : Char) : Bool :=
  (decide ('a' ≤ c) && decide (c ≤ 'z')) || (decide ('0' ≤ c) && decide (c ≤ '9')) ||
    c = '_' || c = '-'

/-- Leading and trailing whitespace removal, as done by
`String.prototype.trim`. -/
def trimChars (l : List Char) : List Char :=
  ((l.dropWhile Char.isWhitespace).reverse.dropWhile Char.isWhitespace).reverse

/-- Dash-collapsing replacement step of the sanitizer: every maximal run of
dashes becomes one dash. -/
def collapseDashes : List Char → List Char
  | [] => []
  | [c] => [c]
  | a :: b :: rest =>
    if a = '-' && b = '-' then collapseDashes (b :: rest)
    else a :: collapseDashes (b :: rest)

/-- Half of the edge-dash replacement step: remove one leading dash. -/
def stripLeadDash : List Char → List Char
  | '-' :: rest => rest
  | l => l

/-- Edge-dash replacement step: remove one leading and one trailing dash. -/
def stripEdgeDashes (l : List Char) : List Char :=
  (stripLeadDash (stripLeadDash l).reverse).reverse

/-- Sanitizer `sanitizeTokenKey` from
`packages/design-tokens/src/css-generator.ts`: trim, lower-case, replace
every character outside `[a-z0-9_-]` with a dash, collapse runs of dashes,
and remove one leading and one trailing dash. -/
def sanitizeTokenKey (key : List Char) : List Char :=
  stripEdgeDashes (collapseDashes
    (((trimChars key).map Char.toLower).map (fun c => if jsAllowedChar c then c else '-')))

/-- All 38 characters a sanitized key may contain. -/
def sanitizedAlphabet : List Char := "abcdefghijklmnopqrstuvwxyz0123456789_-".toList

/-- Absence of two consecutive dashes. -/
def noDoubledDash : List Char → Bool
  | [] => true
  | [_] => true
  | a :: b :: rest => !(a = '-' && b = '-') && noDoubledDash (b :: rest)

/-- Sanitized form, as the claimed property words it: lower-case, only
`[a-z0-9_-]`, no leading or trailing dash, no doubled dash. -/
def isSanitizedKey (l : List Char) : Bool :=
  l.all (fun c => decide (c ∈ sanitizedAlphabet)) &&
    !(l.head? = some '-') && !(l.getLast? = some '-') && noDoubledDash l

/-- Host RegExp and URL tests used by the built-in string validators
(`VALIDATORS.email`, `VALIDATORS.phone`, `VALIDATORS.url`): these live in the
regular-expression and URL engines of the host and are passed in as
parameters of the embedding. -/
structure RegexTesters where
  email : String → Bool
  phone : String → Bool
  url : String → Bool

/-- Rule-type union of the dual-mode input, from its `ValidationRule`
declaration: `required`, `email`, `phone`, `url`, `min`, `max`, `pattern`,
`custom`, `async`. -/
inductive InputRuleType where
  | required | email | phone | url | min | max | pattern | custom | async
deriving DecidableEq

/-- Validation rule of the dual-mode input.  The field `pattern` embeds the
RegExp of the rule as its test function; `customValidator` is the predicate
supplied by the caller. -/
structure InputRule where
  type : InputRuleType
  message : String
  value : Option Int := none
  pattern : Option (String → Bool) := none
  customValidator : Option (String → Bool) := none

/-- Check `length <= (rule.value || Infinity)`: a missing or zero (falsy)
bound degrades to `Infinity`, which every length satisfies. -/
def maxBoundOk (len : Nat) : Option Int → Bool
  | none => true
  | some m => if m = 0 then true else decide ((len : Int) ≤ m)

/-- One iteration of the `switch` inside `validateInput` of the dual-mode
input: whether `rule` accepts `inputValue`.  The `async` arm only `break`s,
leaving `isValid = false`. -/
def inputRuleValid (R : RegexTesters) (rule : InputRule) (inputValue : String) : Bool :=
  match rule.type with
  | .required => decide (0 < inputValue.trim.length)
  | .email => inputValue == "" || R.email inputValue
  | .phone => inputValue == "" || R.phone inputValue
  | .url => inputValue == "" || R.url inputValue
  | .min => inputValue == "" || decide (rule.value.getD 0 ≤ (inputValue.length : Int))
  | .max => inputValue == "" || maxBoundOk inputValue.length rule.value
  | .pattern =>
    inputValue == "" ||
      (match rule.pattern with
       | none => true
       | some p => p inputValue)
  | .custom =>
    inputValue == "" ||
      (match rule.customValidator with
       | none => true
       | some f => f inputValue)
  | .async => false

/-- Loop `for (const rule of validation)` of `validateInput`, collecting
`rule.message` for every failing rule in declaration order. -/
def collectInputErrors (R : RegexTesters) (inputValue : String) :
    List InputRule → List String
  | [] => []
  | r :: rs =>
    if inputRuleValid R r inputValue then collectInputErrors R inputValue rs
    else r.message :: collectInputErrors R inputValue rs

/-- Function `validateInput` of the dual-mode `DynInput`, including the
guard `if (!hasEnhancedFeatures || validation.length === 0) return []`. -/
def validateInput (R : RegexTesters) (hasEnhancedFeaturesFlag : Bool)
    (validation : List InputRule) (inputValue : String) : List String :=
  if !hasEnhancedFeaturesFlag || validation.isEmpty then []
  else collectInputErrors R inputValue validation

/-- Rule-type union of the checkbox variants: `required` or `custom`. -/
inductive CheckboxRuleType where
  | required | custom
deriving DecidableEq

/-- Validation rule of the checkbox variants, over the checked value. -/
structure CheckboxRule where
  type : CheckboxRuleType
  message : String
  customValidator : Option (Bool → Bool) := none

/-- One iteration of the `switch` inside `validateCheckbox`: `required`
demands a checked box, `custom` is
`!rule.customValidator || rule.customValidator(checked)`. -/
def checkboxRuleValid (rule : CheckboxRule) (checked : Bool) : Bool :=
  match rule.type with
  | .required => checked
  | .custom =>
    match rule.customValidator with
    | none => true
    | some f => f checked

/-- Rule loop of the checkbox validators, collecting messages of failing
rules in order. -/
def collectCheckboxErrors (checked : Bool) : List CheckboxRule → List String
  | [] => []
  | r :: rs =>
    if checkboxRuleValid r checked then collectCheckboxErrors checked rs
    else r.message :: collectCheckboxErrors checked rs

/-- Configuration (props) of the dual-mode `DynCheckbox` that its behavior
depends on. -/
structure DynCheckboxCfg where
  readonly : Bool := false
  disabled : Bool := false
  loading : Bool := false
  indeterminate : Bool := false
  label : Option String := none
  description : Option String := none
  error : Option String := none
  warning : Option String := none
  success : Option String := none
  validation : List CheckboxRule := []

/-- Enhanced-mode predicate of the dual-mode checkbox:
`Boolean(indeterminate || label || description || error || warning ||
success || validation.length > 0 || loading)`. -/
def hasEnhancedFeatures (c : DynCheckboxCfg) : Bool :=
  c.indeterminate || optTruthy c.label || optTruthy c.description ||
    optTruthy c.error || optTruthy c.warning || optTruthy c.success ||
    decide (0 < c.validation.length) || c.loading

/-- Function `validateCheckbox` of the dual-mode `DynCheckbox`, including the
guard `if (!hasEnhancedFeatures || validation.length === 0) return []`. -/
def validateCheckbox (c : DynCheckboxCfg) (checked : Bool) : List String :=
  if !hasEnhancedFeatures c || c.validation.isEmpty then []
  else collectCheckboxErrors checked c.validation

/-- Internal state of a mounted checkbox. -/
structure DynCheckboxState where
  checked : Bool
  isIndeterminate : Bool
  validationErrors : List String := []
  hasInteracted : Bool := false

/-- Handler `handleChange` of the dual-mode `DynCheckbox`.  Here
`targetChecked` is `event.target.checked`; a native toggle supplies the
negation of the current checked state.  The second component is the
`onChange` report: `none` when the guard returns early,
`some (checked, some indeterminate)` in enhanced mode, and
`some (checked, none)` in basic mode. -/
def dynHandleChange (cfg : DynCheckboxCfg) (s : DynCheckboxState)
    (targetChecked : Bool) : DynCheckboxState × Option (Bool × Option Bool) :=
  if cfg.readonly || cfg.disabled || cfg.loading then (s, none)
  else if hasEnhancedFeatures cfg then
    ({ s with checked := targetChecked, isIndeterminate := false,
              hasInteracted := true,
              validationErrors := validateCheckbox cfg targetChecked },
     some (targetChecked, some false))
  else ({ s with checked := targetChecked }, some (targetChecked, none))

/-- Effect of the dual-mode checkbox that re-applies the `indeterminate`
prop: `useEffect` on `[indeterminate, hasEnhancedFeatures]` running
`if (hasEnhancedFeatures) setIsIndeterminate(indeterminate)`. -/
def syncIndeterminate (cfg : DynCheckboxCfg) (s : DynCheckboxState) :
    DynCheckboxState :=
  if hasEnhancedFeatures cfg then { s with isIndeterminate := cfg.indeterminate }
  else s

/-- Function `validateCheckbox` of `DynCheckboxEnhanced` (no enhanced-mode
guard). -/
def enhValidateCheckbox (validation : List CheckboxRule) (checked : Bool) :
    List String :=
  collectCheckboxErrors checked validation

/-- Handler `handleChange` of `DynCheckboxEnhanced`: always clears
indeterminate and reports `onChange(newChecked, false)`. -/
def enhHandleChange (cfg : DynCheckboxCfg) (s : DynCheckboxState)
    (targetChecked : Bool) : DynCheckboxState × Option (Bool × Bool) :=
  if cfg.readonly || cfg.disabled || cfg.loading then (s, none)
  else
    ({ s with checked := targetChecked, isIndeterminate := false,
              hasInteracted := true,
              validationErrors := enhValidateCheckbox cfg.validation targetChecked },
     some (targetChecked, false))

/-- Handler `handleKeyDown` of `DynCheckboxEnhanced`: Space or Enter flips
the checked state, clears indeterminate and reports
`onChange(newChecked, false)`. -/
def enhHandleKeyDown (cfg : DynCheckboxCfg) (s : DynCheckboxState)
    (key : String) : DynCheckboxState × Option (Bool × Bool) :=
  if key == " " || key == "Enter" then
    if cfg.readonly || cfg.disabled || cfg.loading then (s, none)
    else
      ({ s with checked := !s.checked, isIndeterminate := false,
                hasInteracted := true,
                validationErrors := enhValidateCheckbox cfg.validation (!s.checked) },
       some (!s.checked, false))
  else (s, none)

/-- Unconditional `useEffect` of `DynCheckboxEnhanced` re-applying the
`indeterminate` prop. -/
def enhSyncIndeterminate (cfg : DynCheckboxCfg) (s : DynCheckboxState) :
    DynCheckboxState :=
  { s with isIndeterminate := cfg.indeterminate }

/-- Feedback severity, computed identically by all four input and checkbox
variants:
`hasError = Boolean(error || validationErrors.length > 0)`,
`hasWarning = Boolean(warning && !hasError)`,
`hasSuccess = Boolean(success && !hasError && !hasWarning)`. -/
def feedbackState (error warning success : Option String)
    (validationErrors : List String) : Bool × Bool × Bool :=
  let hasError := optTruthy error || decide (0 < validationErrors.length)
  let hasWarning := optTruthy warning && !hasError
  let hasSuccess := optTruthy success && !hasError && !hasWarning
  (hasError, hasWarning, hasSuccess)

/-- JavaScript runtime values as received by the generic validation hook
`useEnhancedValidation` (whose value parameter has type `any`). -/
inductive JSValue where
  | str (s : String)
  | num (n : Int)
  | bool (b : Bool)
  | list (l : List JSValue)
  | null

/-- JavaScript truthiness of a `JSValue` (used by the `!currentValue`
short-circuits of the hook). -/
def jsTruthy : JSValue → Bool
  | .str s => s != ""
  | .num n => decide (n ≠ 0)
  | .bool b => b
  | .list _ => true
  | .null => false

mutual
/-- JavaScript string coercion of a value (used where the hook passes
`currentValue as string` into a RegExp test). -/
def jsToString : JSValue → String
  | .str s => s
  | .num n => toString n
  | .bool b => if b then "true" else "false"
  | .null => "null"
  | .list l => jsListToString l
/-- JavaScript string coercion of an array: elements joined by commas. -/
def jsListToString : List JSValue → String
  | [] => ""
  | [v] => jsToString v
  | v :: vs => jsToString v ++ "," ++ jsListToString vs
end

/-- Builtin `VALIDATORS.required` of the hook: non-empty trimmed string,
non-empty array, a true boolean, or any other value that is neither
null-ish nor the empty string. -/
def jsRequired : JSValue → Bool
  | .str s => decide (0 < s.trim.length)
  | .list l => decide (0 < l.length)
  | .bool b => b
  | .num _ => true
  | .null => false

/-- Builtin `VALIDATORS.min` of the hook: number against number bound,
string length against number bound, anything else fails (also when the
bound is missing, since `undefined` is not a number). -/
def jsMinOk : JSValue → Option JSValue → Bool
  | .num n, some (.num m) => decide (m ≤ n)
  | .str s, some (.num m) => decide (m ≤ (s.length : Int))
  | _, _ => false

/-- Builtin `VALIDATORS.max` of the hook, dual to `jsMinOk`. -/
def jsMaxOk : JSValue → Option JSValue → Bool
  | .num n, some (.num m) => decide (n ≤ m)
  | .str s, some (.num m) => decide ((s.length : Int) ≤ m)
  | _, _ => false

/-- Form data passed through to custom and async validators of the hook. -/
abbrev JSFormData := List (String × JSValue)

/-- Rule-type union of `useEnhancedValidation`, plus `unknownType` standing
for any string outside the union reaching the `default` arm (TypeScript
string unions are not enforced at runtime). -/
inductive HookRuleType where
  | required | email | phone | url | min | max | pattern | custom | async
  | unknownType
deriving DecidableEq

/-- Validation rule of `useEnhancedValidation`.  The validator functions
return `Except`: an `error` result embeds a thrown exception or a rejected
promise. -/
structure HookRule where
  type : HookRuleType
  message : String
  value : Option JSValue := none
  pattern : Option (String → Bool) := none
  customValidator : Option (JSValue → Option JSFormData → Except String Bool) := none
  asyncValidator : Option (JSValue → Option JSFormData → Except String Bool) := none

/-- Function `validateRule` of `useEnhancedValidation`: one rule evaluated
inside `try status catch status`, returning `none` for a pass and the rule
message for a failure.  With a missing `customValidator` or
`asyncValidator`, `isValid` keeps its initial `false` and the message is
returned.  In the `pattern` arm, a truthy value with a missing pattern makes
the non-null assertion `rule.pattern!` blow up inside the `try`, which the
`catch` converts to the rule message.  A thrown or rejected validator is
likewise caught and converted to the rule message (the `console.error`
diagnostic is an effect outside this embedding).  The `default` arm warns
and returns `null`. -/
def validateRule (R : RegexTesters) (formData : Option JSFormData)
    (rule : HookRule) (currentValue : JSValue) : Option String :=
  match rule.type with
  | .required => if jsRequired currentValue then none else some rule.message
  | .email =>
    if !jsTruthy currentValue || R.email (jsToString currentValue) then none
    else some rule.message
  | .phone =>
    if !jsTruthy currentValue || R.phone (jsToString currentValue) then none
    else some rule.message
  | .url =>
    if !jsTruthy currentValue || R.url (jsToString currentValue) then none
    else some rule.message
  | .min =>
    if !jsTruthy currentValue || jsMinOk currentValue rule.value then none
    else some rule.message
  | .max =>
    if !jsTruthy currentValue || jsMaxOk currentValue rule.value then none
    else some rule.message
  | .pattern =>
    if !jsTruthy currentValue then none
    else
      match rule.pattern with
      | some p => if p (jsToString currentValue) then none else some rule.message
      | none => some rule.message
  | .custom =>
    match rule.customValidator with
    | some f =>
      match f currentValue formData with
      | .ok b => if b then none else some rule.message
      | .error _ => some rule.message
    | none => some rule.message
  | .async =>
    match rule.asyncValidator with
    | some f =>
      match f currentValue formData with
      | .ok b => if b then none else some rule.message
      | .error _ => some rule.message
    | none => some rule.message
  | .unknownType => none

/-- Options record of the hook, with the `DEFAULT_OPTIONS` defaults. -/
structure HookOptions where
  validateOnChange : Bool := true
  validateOnBlur : Bool := true
  validateOnMount : Bool := false
  debounceMs : Nat := 300
  stopOnFirstError : Bool := false

/-- Hook state: the stored error list, the externally set custom error, and
the validating and has-validated flags. -/
structure HookState where
  errors : List String := []
  customError : Option String := none
  isValidating : Bool := false
  hasValidated : Bool := false

/-- Rule loop of `validate`: push each non-falsy error message in order,
`break`ing after the first failure when `stopOnFirstError` is set. -/
def evalRules (R : RegexTesters) (formData : Option JSFormData)
    (stopOnFirstError : Bool) (currentValue : JSValue) :
    List HookRule → List String
  | [] => []
  | r :: rs =>
    match validateRule R formData r currentValue with
    | some err =>
      if err != "" then
        if stopOnFirstError then [err]
        else err :: evalRules R formData stopOnFirstError currentValue rs
      else evalRules R formData stopOnFirstError currentValue rs
    | none => evalRules R formData stopOnFirstError currentValue rs

/-- Function `validate` of `useEnhancedValidation` as a state transition:
with no rules and no truthy custom error it clears the stored errors and
returns true; otherwise it pushes the truthy custom error first, runs the
rule loop, stores the new error list, marks the hook validated, and returns
whether the new list is empty. -/
def validate (R : RegexTesters) (formData : Option JSFormData)
    (rules : List HookRule) (opts : HookOptions) (value : JSValue)
    (s : HookState) : HookState × Bool :=
  if rules.isEmpty && !optTruthy s.customError then
    ({ s with errors := [] }, true)
  else
    let newErrors :=
      (match s.customError with
       | some ce => if ce != "" then [ce] else []
       | none => []) ++ evalRules R formData opts.stopOnFirstError value rules
    ({ s with errors := newErrors, isValidating := false, hasValidated := true },
     newErrors.isEmpty)

/-- Computed error list returned by the hook:
`[...(customError ? [customError] : []), ...errors]`. -/
def allErrors (s : HookState) : List String :=
  (match s.customError with
   | some ce => if ce != "" then [ce] else []
   | none => []) ++ s.errors

/-- Computed `errorMessage` of the hook: `allErrors[0]`. -/
def errorMessage (s : HookState) : Option String := (allErrors s).head?

/-- Computed `hasError` of the hook: `allErrors.length > 0`. -/
def hookHasError (s : HookState) : Bool := decide (0 < (allErrors s).length)

/-- Sort direction union of the enhanced table. -/
inductive SortDirection where
  | asc | desc
deriving DecidableEq

/-- Sort configuration of the enhanced table. -/
structure SortConfig where
  key : String
  direction : SortDirection

/-- Pagination descriptor of the enhanced table (the parts its rendering
depends on). -/
structure TablePagination where
  current : Nat
  pageSize : Nat
  total : Nat

/-- Column data accessor of the enhanced table: either a property key or an
accessor function over the record. -/
inductive DataIndex (V : Type) where
  | field (k : String)
  | accessor (f : (String → V) → V)

/-- Column definition of the enhanced table (records are embedded as field
maps `String → V` over an abstract cell-value type `V`). -/
structure TableColumn (V : Type) where
  key : String
  title : String := ""
  dataIndex : Option (DataIndex V) := none
  sortable : Bool := false
  filterable : Bool := false

/-- Derived value of a column for a record, as resolved inside the filter
and sort passes:
`column.dataIndex ? (function ? dataIndex(record) : record[dataIndex]) : record[key]`,
where a dataIndex that is the empty-string key is falsy and falls through to
`record[key]`. -/
def resolveColumnValue {V : Type} (column : TableColumn V)
    (record : String → V) (key : String) : V :=
  match column.dataIndex with
  | some (.accessor f) => f record
  | some (.field k) => if k = "" then record key else record k
  | none => record key

/-- Filter check of one entry for one record:
`String(value).toLowerCase().includes(filterValue.toLowerCase())` on the
derived value of the column found by the entry key; an entry whose key
matches no column keeps the record. -/
def recordMatchesFilter {V : Type} (columns : List (TableColumn V))
    (toStr : V → String) (key filterValue : String) (record : String → V) : Bool :=
  match columns.find? (fun col => col.key == key) with
  | none => true
  | some column =>
    decide (filterValue.toLower.toList <:+:
      (toStr (resolveColumnValue column record key)).toLower.toList)

/-- Filter pass of `processedData`: the `Object.entries(internalFilters)`
loop, skipping falsy (empty) filter values and narrowing `result` per
entry. -/
def applyTableFilters {V : Type} (columns : List (TableColumn V))
    (toStr : V → String) (internalFilters : List (String × String))
    (data : List (String → V)) : List (String → V) :=
  internalFilters.foldl (fun result kv =>
    if kv.2 == "" then result
    else result.filter (fun record =>
      recordMatchesFilter columns toStr kv.1 kv.2 record)) data

/-- Two-way comparator of the sort pass: `<` gives -1 ascending and +1
descending, `>` gives +1 ascending and -1 descending, anything else 0.  The
JavaScript `<` and `>` on cell values are passed in as `ltB` and `gtB`. -/
def rowComparator {V : Type} (column : TableColumn V) (ltB gtB : V → V → Bool)
    (cfg : SortConfig) (a b : String → V) : Int :=
  let aValue := resolveColumnValue column a cfg.key
  let bValue := resolveColumnValue column b cfg.key
  if ltB aValue bValue then (match cfg.direction with | .asc => -1 | .desc => 1)
  else if gtB aValue bValue then (match cfg.direction with | .asc => 1 | .desc => -1)
  else 0

/-- Sort pass of `processedData`: with an active sort configuration whose
key resolves to a column, stably sort by the two-way comparator; otherwise
leave the list unchanged. -/
def applyTableSort {V : Type} (columns : List (TableColumn V))
    (ltB gtB : V → V → Bool) (sortConfig : Option SortConfig)
    (data : List (String → V)) : List (String → V) :=
  match sortConfig with
  | none => data
  | some cfg =>
    match columns.find? (fun col => col.key == cfg.key) with
    | none => data
    | some column =>
      data.mergeSort (fun a b => decide (rowComparator column ltB gtB cfg a b ≤ 0))

/-- Memo `processedData` of the enhanced table: the filter pass followed by
the sort pass. -/
def processedData {V : Type} (columns : List (TableColumn V))
    (toStr : V → String) (ltB gtB : V → V → Bool)
    (internalFilters : List (String × String)) (sortConfig : Option SortConfig)
    (dataSource : List (String → V)) : List (String → V) :=
  applyTableSort columns ltB gtB sortConfig
    (applyTableFilters columns toStr internalFilters dataSource)

/-- Memo `paginatedData` of the enhanced table: without pagination the
processed list itself, otherwise
`processedData.slice((current - 1) * pageSize, current * pageSize)`. -/
def paginatedData {R : Type} (pagination : Option TablePagination)
    (processed : List R) : List R :=
  match pagination with
  | none => processed
  | some p => (processed.drop ((p.current - 1) * p.pageSize)).take p.pageSize

/-- Displayed page count: `Math.ceil(pagination.total / pagination.pageSize)`. -/
def pageCount (total pageSize : Nat) : Int :=
  ⌈(total : ℚ) / (pageSize : ℚ)⌉

/-- Row-selection configuration of the enhanced table (the `onSelect`
callback is embedded as the report value of `handleSelectAll`). -/
structure SelectionConfig (T : Type) where
  selectedRowKeys : List String
  getRowKey : T → String

/-- Memo `selectionState` of the enhanced table, as the pair
(checked, indeterminate): both false without row selection or with an empty
data source, otherwise `selectedCount === totalCount` and
`selectedCount > 0 && selectedCount < totalCount` over the full
`dataSource`. -/
def selectionState {T : Type} (rowSelection : Option (SelectionConfig T))
    (dataSource : List T) : Bool × Bool :=
  match rowSelection with
  | none => (false, false)
  | some rs =>
    if dataSource.length = 0 then (false, false)
    else
      (decide (rs.selectedRowKeys.length = dataSource.length),
       decide (0 < rs.selectedRowKeys.length ∧
         rs.selectedRowKeys.length < dataSource.length))

/-- Handler `handleSelectAll` of the enhanced table: `none` without row
selection (early return), otherwise the `onSelect` report — every key of
`dataSource` with all its records when selecting, the empty sets when
deselecting. -/
def handleSelectAll {T : Type} (rowSelection : Option (SelectionConfig T))
    (dataSource : List T) (selected : Bool) : Option (List String × List T) :=
  match rowSelection with
  | none => none
  | some rs =>
    some (if selected then (dataSource.map rs.getRowKey, dataSource) else ([], []))

/-- Modelled from the spec (refinement target for the filter stage): a
record passes the filter stage exactly when every non-empty filter entry
matches it. -/
def specFilterKeep {V : Type} (columns : List (TableColumn V))
    (toStr : V → String) (filters : List (String × String))
    (record : String → V) : Bool :=
  filters.all (fun kv =>
    kv.2 == "" || recordMatchesFilter columns toStr kv.1 kv.2 record)

/- Theorems. -/

/-- On a mask made only of `9` placeholders and non-digit literals, an
all-digit input short enough for the digit capacity of the mask is copied
through interleaved with the literals, and filtering with any character set
that contains every literal of the mask but no character of the input
recovers the input exactly. -/
theorem applyMask_filter_digits (mask : List Char) :
    ∀ (value lit : List Char),
      (∀ c ∈ value, c.isDigit = true) →
      (∀ m ∈ mask, m = '9' ∨ (m.isDigit = false ∧ m ≠ 'A' ∧ m ≠ '*')) →
      (∀ m ∈ mask, m ≠ '9' → m ∈ lit) →
      (∀ c ∈ value, c ∉ lit) →
      value.length ≤ mask.count '9' →
      (applyMask value mask).filter (fun c => !lit.contains c) = value := by
  induction mask with
  | nil =>
    intro value lit _ _ _ _ hlen
    have hv : value = [] :=
      List.eq_nil_of_length_eq_zero (Nat.le_zero.mp (by simpa using hlen))
    subst hv
    simp [applyMask]
  | cons m ms ih =>
    intro value lit hdig hm hlit hnot hlen
    by_cases h9 : m = '9'
    · subst h9
      cases value with
      | nil => simp [applyMask]
      | cons v vs =>
        have hv : v.isDigit = true := hdig v (by simp)
        have hvlit : v ∉ lit := hnot v (by simp)
        rw [applyMask, if_pos rfl, if_pos hv]
        rw [List.filter_cons_of_pos (by simpa using hvlit)]
        have := ih vs lit (fun c hc => hdig c (by simp [hc]))
          (fun x hx => hm x (by simp [hx]))
          (fun x hx => hlit x (by simp [hx]))
          (fun c hc => hnot c (by simp [hc]))
          (by
            simpa [List.count_cons] using
              Nat.le_of_succ_le_succ (by simpa [List.count_cons] using hlen))
        rw [this]
    · have hmfacts := hm m (by simp)
      rcases hmfacts with rfl | ⟨hmd, hma, hms⟩
      · exact absurd rfl h9
      · have hmlit : m ∈ lit := hlit m (by simp) h9
        cases value with
        | nil => simp [applyMask]
        | cons v vs =>
          rw [applyMask, if_neg h9, if_neg hma, if_neg hms]
          rw [List.filter_cons_of_neg (by simp [hmlit])]
          exact ih (v :: vs) lit hdig
            (fun x hx => hm x (by simp [hx]))
            (fun x hx => hlit x (by simp [hx]))
            hnot
            (by simpa [List.count_cons, h9] using hlen)

/-- Digit characters stay clear of the literal set of the phone mask. -/
theorem digit_notin_phone_literals {c : Char} (h : c.isDigit = true) :
    c ∉ maskLiteralChars phoneMask := by
  intro hmem
  have : c ∈ ['(', ')', ' ', '-'] := by
    simpa [maskLiteralChars, phoneMask] using hmem
  fin_cases this <;> simp_all

/-- C1.  For the mask `"(999) 999-9999"`, applying it to the raw digits
`"1234567890"` yields `"(123) 456-7890"`, removing the mask from that display
value recovers `"1234567890"`, and for any 10-digit input the round trip
`removeMask (applyMask digits mask) mask = digits` holds. -/
theorem c1_mask_round_trip :
    applyMask "1234567890".toList phoneMask = "(123) 456-7890".toList ∧
    removeMask "(123) 456-7890".toList phoneMask = "1234567890".toList ∧
    ∀ digits : List Char, digits.length = 10 → (∀ c ∈ digits, c.isDigit = true) →
      removeMask (applyMask digits phoneMask) phoneMask = digits := by
  refine ⟨by decide, by decide, ?_⟩
  intro digits hlen hdig
  unfold removeMask
  apply applyMask_filter_digits phoneMask digits (maskLiteralChars phoneMask) hdig
  · intro m hm
    have : m ∈ "(999) 999-9999".toList := hm
    fin_cases this <;> simp
  · intro m hm h9
    have : m ∈ "(999) 999-9999".toList := hm
    fin_cases this <;> simp_all <;> decide
  · intro c hc
    exact digit_notin_phone_literals (hdig c hc)
  · rw [hlen]; decide

/-- Witness for C1 at the concrete 10-digit input `"0987654321"`. -/
theorem c1_mask_round_trip_witness :
    removeMask (applyMask "0987654321".toList phoneMask) phoneMask =
      "0987654321".toList :=
  c1_mask_round_trip.2.2 "0987654321".toList (by decide) (by decide)

/-- Characters of the sanitized alphabet are kept by the replacement step,
fixed by lower-casing, and are not whitespace. -/
theorem sanitizedAlphabet_char_facts {c : Char} (h : c ∈ sanitizedAlphabet) :
    jsAllowedChar c = true ∧ c.toLower = c ∧ c.isWhitespace = false := by
  fin_cases h <;> exact ⟨by decide, by decide, by decide⟩

/-- Lists on which the predicate never holds are unchanged by `dropWhile`. -/
theorem dropWhile_eq_self_of_none {p : Char → Bool} {l : List Char}
    (h : ∀ c ∈ l, p c = false) : l.dropWhile p = l := by
  cases l with
  | nil => rfl
  | cons a l => simp [List.dropWhile_cons, h a (by simp)]

/-- Lists without doubled dashes are unchanged by `collapseDashes`. -/
theorem collapseDashes_eq_self {l : List Char} (h : noDoubledDash l = true) :
    collapseDashes l = l := by
  induction l with
  | nil => rfl
  | cons a l ih =>
    cases l with
    | nil => rfl
    | cons b rest =>
      rw [noDoubledDash, Bool.and_eq_true] at h
      obtain ⟨h1, h2⟩ := h
      have hab : (a = '-' && b = '-') = false := by
        rcases (by simpa using h1 : ¬ a = '-' ∨ ¬ b = '-') with hx | hx <;> simp [hx]
      rw [collapseDashes, if_neg (by simp [hab]), ih h2]

/-- Lists not starting with a dash are unchanged by `stripLeadDash`. -/
theorem stripLeadDash_eq_self {l : List Char} (h : ¬ l.head? = some '-') :
    stripLeadDash l = l := by
  cases l with
  | nil => rfl
  | cons a rest =>
    have : ¬ a = '-' := by simpa using h
    cases rest with
    | nil =>
      unfold stripLeadDash
      split
      · simp_all
      · rfl
    | cons b r =>
      unfold stripLeadDash
      split
      · simp_all
      · rfl

/-- C9.  The token-key sanitizer is idempotent on keys already in sanitized
form: lower-case, only `[a-z0-9_-]`, no leading or trailing dash, no doubled
dash. -/
theorem c9_sanitize_idempotent (l : List Char) (h : isSanitizedKey l = true) :
    sanitizeTokenKey l = l := by
  simp only [isSanitizedKey, Bool.and_eq_true] at h
  obtain ⟨⟨⟨hal, hh⟩, hlst⟩, hnodd⟩ := h
  have hall : ∀ c ∈ l, c ∈ sanitizedAlphabet := by
    intro c hc
    have := List.all_eq_true.mp hal c hc
    simpa using this
  have hhead : ¬ l.head? = some '-' := by simpa using hh
  have hlast : ¬ l.getLast? = some '-' := by simpa using hlst
  have htrim : trimChars l = l := by
    unfold trimChars
    rw [dropWhile_eq_self_of_none
      (fun c hc => (sanitizedAlphabet_char_facts (hall c hc)).2.2)]
    rw [dropWhile_eq_self_of_none
      (fun c hc => (sanitizedAlphabet_char_facts (hall c (by simpa using hc))).2.2)]
    exact List.reverse_reverse l
  have hlower : l.map Char.toLower = l := by
    have h1 : l.map Char.toLower = l.map id :=
      List.map_congr_left (fun c hc => (sanitizedAlphabet_char_facts (hall c hc)).2.1)
    simpa using h1
  have hrepl : l.map (fun c => if jsAllowedChar c then c else '-') = l := by
    have h1 : l.map (fun c => if jsAllowedChar c then c else '-') = l.map id :=
      List.map_congr_left
        (fun c hc => by simp [(sanitizedAlphabet_char_facts (hall c hc)).1])
    simpa using h1
  unfold sanitizeTokenKey
  rw [htrim, hlower, hrepl, collapseDashes_eq_self hnodd]
  unfold stripEdgeDashes
  rw [stripLeadDash_eq_self hhead]
  rw [stripLeadDash_eq_self (by rw [List.head?_reverse]; exact hlast)]
  exact List.reverse_reverse l

/-- Witness for C9 at the concrete sanitized key `"color-primary_500"`. -/
theorem c9_sanitize_idempotent_witness :
    isSanitizedKey "color-primary_500".toList = true ∧
      sanitizeTokenKey "color-primary_500".toList = "color-primary_500".toList :=
  ⟨by decide, c9_sanitize_idempotent "color-primary_500".toList (by decide)⟩

/-- C2 counterexample: in `validateRule` of `useEnhancedValidation`, a
`custom` rule with no `customValidator` is NOT trivially valid — evaluating
it against the value `"x"` produces the rule message `"bad"`, where the
claim says no error message is produced. -/
theorem c2_missing_validator_counterexample :
    validateRule ⟨fun _ => false, fun _ => false, fun _ => false⟩ none
      { type := HookRuleType.custom, message := "bad" } (JSValue.str "x") =
      some "bad" := rfl

/-- C2 amended: the inline validators of the dual-mode input and of the
checkbox variants do treat a `custom` rule with no `customValidator` as
trivially valid; but in the inline input validator an `async` rule is never
evaluated and always fails, and in the `useEnhancedValidation` hook a
`custom` rule with no `customValidator` and an `async` rule with no
`asyncValidator` both fail with the rule message. -/
theorem c2_missing_validator_amended :
    (∀ (R : RegexTesters) (v msg : String),
      inputRuleValid R { type := InputRuleType.custom, message := msg } v = true) ∧
    (∀ (msg : String) (checked : Bool),
      checkboxRuleValid { type := CheckboxRuleType.custom, message := msg } checked
        = true) ∧
    (∀ (R : RegexTesters) (v : String) (rule : InputRule),
      rule.type = InputRuleType.async → inputRuleValid R rule v = false) ∧
    (∀ (R : RegexTesters) (fd : Option JSFormData) (v : JSValue) (rule : HookRule),
      rule.type = HookRuleType.custom → rule.customValidator = none →
        validateRule R fd rule v = some rule.message) ∧
    (∀ (R : RegexTesters) (fd : Option JSFormData) (v : JSValue) (rule : HookRule),
      rule.type = HookRuleType.async → rule.asyncValidator = none →
        validateRule R fd rule v = some rule.message) := by
  refine ⟨?_, ?_, ?_, ?_, ?_⟩
  · intro R v msg
    simp [inputRuleValid]
  · intro msg checked
    simp [checkboxRuleValid]
  · intro R v rule ht
    simp [inputRuleValid, ht]
  · intro R fd v rule ht hcv
    simp [validateRule, ht, hcv]
  · intro R fd v rule ht hav
    simp [validateRule, ht, hav]

/-- Witness for C2 (amended) at concrete rules and values. -/
theorem c2_missing_validator_amended_witness :
    inputRuleValid ⟨fun _ => false, fun _ => false, fun _ => false⟩
      { type := InputRuleType.custom, message := "m" } "x" = true ∧
    checkboxRuleValid { type := CheckboxRuleType.custom, message := "m" } false
      = true ∧
    inputRuleValid ⟨fun _ => false, fun _ => false, fun _ => false⟩
      { type := InputRuleType.async, message := "m" } "x" = false ∧
    validateRule ⟨fun _ => false, fun _ => false, fun _ => false⟩ none
      { type := HookRuleType.async, message := "m" } (JSValue.str "y") =
      some "m" :=
  ⟨c2_missing_validator_amended.1 _ "x" "m",
   c2_missing_validator_amended.2.1 "m" false,
   c2_missing_validator_amended.2.2.1 _ "x" _ rfl,
   c2_missing_validator_amended.2.2.2.2 _ none (JSValue.str "y") _ rfl rfl⟩

/-- C5.  Whenever a custom error is present in the hook state, the computed
error list returned by the hook is exactly the custom error followed by the
stored rule-derived errors, and `errorMessage` is that first entry. -/
theorem c5_custom_error_first (s : HookState) (ce : String)
    (h1 : s.customError = some ce) (h2 : ce ≠ "") :
    allErrors s = ce :: s.errors ∧ errorMessage s = some ce := by
  have hA : allErrors s = ce :: s.errors := by
    simp [allErrors, h1, h2]
  exact ⟨hA, by simp [errorMessage, hA]⟩

/-- Witness for C5 at a concrete hook state. -/
theorem c5_custom_error_first_witness :
    allErrors { errors := ["rule error"], customError := some "custom error" } =
      ["custom error", "rule error"] ∧
    errorMessage { errors := ["rule error"], customError := some "custom error" } =
      some "custom error" := by
  have h := c5_custom_error_first
    { errors := ["rule error"], customError := some "custom error" }
    "custom error" rfl (by decide)
  simpa using h

/-- C6.  A rule whose custom or async validator throws (or rejects) is
caught at the point of evaluation inside `validateRule` and converted into a
failure carrying the configured message of that rule; `validateRule` is a
total function into `Option String`, so no exception escapes the `validate`
pass built on it. -/
theorem c6_validator_exception_contained (R : RegexTesters)
    (fd : Option JSFormData) (rule : HookRule) (v : JSValue) (ex : String)
    (h : (rule.type = HookRuleType.custom ∧
            ∃ f, rule.customValidator = some f ∧ f v fd = Except.error ex) ∨
         (rule.type = HookRuleType.async ∧
            ∃ f, rule.asyncValidator = some f ∧ f v fd = Except.error ex)) :
    validateRule R fd rule v = some rule.message := by
  rcases h with ⟨ht, f, hf, herr⟩ | ⟨ht, f, hf, herr⟩ <;>
    simp [validateRule, ht, hf, herr]

/-- Witness for C6 with a concrete throwing validator. -/
theorem c6_validator_exception_contained_witness :
    validateRule ⟨fun _ => false, fun _ => false, fun _ => false⟩ none
      { type := HookRuleType.custom, message := "broken validator",
        customValidator := some (fun _ _ => Except.error "boom") }
      (JSValue.str "x") = some "broken validator" :=
  c6_validator_exception_contained _ none _ (JSValue.str "x") "boom"
    (Or.inl ⟨rfl, fun _ _ => Except.error "boom", rfl, rfl⟩)

/-- C10.  After `validate` completes while a truthy custom error is set, the
stored error list itself begins with the custom error (the validate pass
pushes it), and the computed error list returned by the hook prepends it
again, so the custom error appears twice: at position 0 and at position 1. -/
theorem c10_custom_error_duplicated (R : RegexTesters) (fd : Option JSFormData)
    (rules : List HookRule) (opts : HookOptions) (v : JSValue)
    (s : HookState) (ce : String) (h1 : s.customError = some ce) (h2 : ce ≠ "") :
    (validate R fd rules opts v s).1.errors =
      ce :: evalRules R fd opts.stopOnFirstError v rules ∧
    allErrors (validate R fd rules opts v s).1 =
      ce :: ce :: evalRules R fd opts.stopOnFirstError v rules := by
  have hcond : ¬ ((rules.isEmpty && !optTruthy s.customError) = true) := by
    simp [optTruthy, h1, h2]
  constructor
  · unfold validate
    rw [if_neg hcond]
    simp [h1, h2]
  · unfold validate
    rw [if_neg hcond]
    simp [allErrors, h1, h2]

/-- Witness for C10 at a concrete hook state with no rules. -/
theorem c10_custom_error_duplicated_witness :
    (validate ⟨fun _ => false, fun _ => false, fun _ => false⟩ none [] {}
        (JSValue.str "") { customError := some "dup" }).1.errors = ["dup"] ∧
    allErrors (validate ⟨fun _ => false, fun _ => false, fun _ => false⟩ none [] {}
        (JSValue.str "") { customError := some "dup" }).1 = ["dup", "dup"] := by
  have h := c10_custom_error_duplicated
    ⟨fun _ => false, fun _ => false, fun _ => false⟩ none [] {}
    (JSValue.str "") { customError := some "dup" } "dup" rfl (by decide)
  simpa [evalRules] using h

/-- C3 counterexample: over an empty `dataSource` with row selection
configured and no selected keys, `selectedRowKeys.length` equals
`dataSource.length` (both 0), yet the header checkbox is NOT checked —
the code special-cases an empty data source to unchecked, so the claimed
biconditional fails. -/
theorem c3_selection_state_counterexample :
    (selectionState
        (some ({ selectedRowKeys := [], getRowKey := fun _ => "" } :
          SelectionConfig Nat)) ([] : List Nat)).1 = false ∧
    ([] : List String).length = ([] : List Nat).length :=
  ⟨rfl, rfl⟩

/-- C3 amended: with row selection configured, the header checkbox is
checked exactly when the data source is non-empty and every row is selected
by count (for an empty data source it is unchecked even though the counts
agree); it is indeterminate exactly when `0 < selectedCount < totalCount`
over the full data source; and toggling it reports either the key of every
record of the data source or the empty list. -/
theorem c3_selection_state_amended {T : Type} (rs : SelectionConfig T)
    (ds : List T) :
    (ds ≠ [] →
      (selectionState (some rs) ds).1 =
        decide (rs.selectedRowKeys.length = ds.length)) ∧
    ((selectionState (some rs) ds).2 =
      decide (0 < rs.selectedRowKeys.length ∧
        rs.selectedRowKeys.length < ds.length)) ∧
    (ds = [] → selectionState (some rs) ds = (false, false)) ∧
    handleSelectAll (some rs) ds true = some (ds.map rs.getRowKey, ds) ∧
    handleSelectAll (some rs) ds false = some ([], []) := by
  refine ⟨?_, ?_, ?_, rfl, rfl⟩
  · intro hne
    have : ¬ ds.length = 0 := by simpa using hne
    simp [selectionState, this]
  · by_cases hds : ds.length = 0
    · simp [selectionState, hds]
    · simp [selectionState, hds]
  · intro h
    subst h
    rfl

/-- Witness for C3 (amended) at a concrete fully selected two-row table. -/
theorem c3_selection_state_amended_witness :
    (selectionState
        (some ({ selectedRowKeys := ["1", "2"], getRowKey := fun n => toString n } :
          SelectionConfig Nat)) [1, 2]).1 = true := by
  have h := (c3_selection_state_amended
    ({ selectedRowKeys := ["1", "2"], getRowKey := fun n => toString n } :
      SelectionConfig Nat) [1, 2]).1 (by decide)
  simpa using h

/-- C7.  The derived feedback severity of the input and checkbox variants is
strictly prioritised: an error (explicit prop or any live validation error)
forces warning and success off, a warning forces success off, at most one of
the three flags is set, and in the absence of the stronger conditions the
weaker flag equals the truthiness of its prop. -/
theorem c7_feedback_priority (error warning success : Option String)
    (validationErrors : List String) :
    ((feedbackState error warning success validationErrors).1 = true →
      (feedbackState error warning success validationErrors).2.1 = false ∧
      (feedbackState error warning success validationErrors).2.2 = false) ∧
    ((feedbackState error warning success validationErrors).2.1 = true →
      (feedbackState error warning success validationErrors).2.2 = false) ∧
    (optTruthy error = true ∨ validationErrors ≠ [] →
      (feedbackState error warning success validationErrors).1 = true) ∧
    ((feedbackState error warning success validationErrors).1 = false →
      (feedbackState error warning success validationErrors).2.1 =
        optTruthy warning) ∧
    ((feedbackState error warning success validationErrors).1 = false →
      (feedbackState error warning success validationErrors).2.1 = false →
      (feedbackState error warning success validationErrors).2.2 =
        optTruthy success) := by
  unfold feedbackState
  cases he : optTruthy error <;> cases hw : optTruthy warning <;>
    cases hs : optTruthy success <;>
      cases hv : decide (0 < validationErrors.length) <;> simp_all

/-- Witness for C7: with all three feedback props present, only the error
flag is raised. -/
theorem c7_feedback_priority_witness :
    (feedbackState (some "E") (some "W") (some "S") []).2.1 = false ∧
    (feedbackState (some "E") (some "W") (some "S") []).2.2 = false :=
  (c7_feedback_priority (some "E") (some "W") (some "S") []).1 (by decide)

/-- C8.  A checkbox rendered interactive (not readonly, disabled or loading)
with `indeterminate` set: one user interaction clears the indeterminate
state, flips checked and reports `onChange(newChecked, false)` — through the
native-toggle handler of the dual-mode variant and through both the change
and the Space or Enter key handlers of the enhanced-only variant — and
re-supplying the `indeterminate` configuration afterwards re-applies it, and
a further interaction clears it again. -/
theorem c8_indeterminate_clears_on_interaction (cfg : DynCheckboxCfg)
    (s : DynCheckboxState)
    (hr : cfg.readonly = false) (hd : cfg.disabled = false)
    (hl : cfg.loading = false) (hi : cfg.indeterminate = true) :
    ((dynHandleChange cfg s (!s.checked)).1.checked = !s.checked ∧
     (dynHandleChange cfg s (!s.checked)).1.isIndeterminate = false ∧
     (dynHandleChange cfg s (!s.checked)).2 = some (!s.checked, some false)) ∧
    (syncIndeterminate cfg
      (dynHandleChange cfg s (!s.checked)).1).isIndeterminate = true ∧
    (dynHandleChange cfg
      (syncIndeterminate cfg (dynHandleChange cfg s (!s.checked)).1)
      (!(syncIndeterminate cfg
          (dynHandleChange cfg s (!s.checked)).1).checked)).1.isIndeterminate =
      false ∧
    ((enhHandleChange cfg s (!s.checked)).1.checked = !s.checked ∧
     (enhHandleChange cfg s (!s.checked)).1.isIndeterminate = false ∧
     (enhHandleChange cfg s (!s.checked)).2 = some (!s.checked, false)) ∧
    (∀ key, key = " " ∨ key = "Enter" →
      (enhHandleKeyDown cfg s key).1.checked = !s.checked ∧
      (enhHandleKeyDown cfg s key).1.isIndeterminate = false ∧
      (enhHandleKeyDown cfg s key).2 = some (!s.checked, false)) ∧
    (enhSyncIndeterminate cfg
      (enhHandleKeyDown cfg s " ").1).isIndeterminate = true := by
  have henh : hasEnhancedFeatures cfg = true := by
    simp [hasEnhancedFeatures, hi]
  refine ⟨⟨?_, ?_, ?_⟩, ?_, ?_, ⟨?_, ?_, ?_⟩, ?_, ?_⟩
  · simp [dynHandleChange, hr, hd, hl, henh]
  · simp [dynHandleChange, hr, hd, hl, henh]
  · simp [dynHandleChange, hr, hd, hl, henh]
  · simp [dynHandleChange, syncIndeterminate, hr, hd, hl, henh, hi]
  · simp [dynHandleChange, syncIndeterminate, hr, hd, hl, henh]
  · simp [enhHandleChange, hr, hd, hl]
  · simp [enhHandleChange, hr, hd, hl]
  · simp [enhHandleChange, hr, hd, hl]
  · intro key hkey
    rcases hkey with rfl | rfl <;> simp [enhHandleKeyDown, hr, hd, hl]
  · simp [enhHandleKeyDown, enhSyncIndeterminate, hr, hd, hl, hi]

/-- Witness for C8 at a concrete indeterminate unchecked checkbox. -/
theorem c8_indeterminate_clears_on_interaction_witness :
    (dynHandleChange { indeterminate := true }
      { checked := false, isIndeterminate := true } true).1.isIndeterminate =
      false ∧
    (dynHandleChange { indeterminate := true }
      { checked := false, isIndeterminate := true } true).2 =
      some (true, some false) ∧
    (enhHandleKeyDown { indeterminate := true }
      { checked := false, isIndeterminate := true } " ").2 =
      some (true, false) := by
  have h := c8_indeterminate_clears_on_interaction { indeterminate := true }
    { checked := false, isIndeterminate := true } rfl rfl rfl rfl
  exact ⟨h.1.2.1, h.1.2.2, (h.2.2.2.2.1 " " (Or.inl rfl)).2.2⟩

/-- Filter loop of the table expressed as one pass: folding the per-entry
narrowing over the filter entries keeps exactly the records that every
non-empty entry matches. -/
theorem applyTableFilters_eq_filter {V : Type} (columns : List (TableColumn V))
    (toStr : V → String) :
    ∀ (filters : List (String × String)) (data : List (String → V)),
      applyTableFilters columns toStr filters data =
        data.filter (specFilterKeep columns toStr filters) := by
  intro filters
  induction filters with
  | nil =>
    intro data
    have hT : specFilterKeep columns toStr ([] : List (String × String)) =
        fun _ => true := rfl
    rw [applyTableFilters, hT, List.filter_true]
    rfl
  | cons kv rest ih =>
    intro data
    rw [applyTableFilters, List.foldl_cons]
    by_cases hkv : (kv.2 == "") = true
    · rw [if_pos hkv]
      have := ih data
      rw [applyTableFilters] at this
      rw [this]
      exact List.filter_congr (fun r _ => by simp [specFilterKeep, hkv])
    · rw [if_neg hkv]
      have := ih (data.filter (fun record =>
        recordMatchesFilter columns toStr kv.1 kv.2 record))
      rw [applyTableFilters] at this
      rw [this, List.filter_filter]
      exact List.filter_congr (fun r _ => by
        simp only [specFilterKeep, List.all_cons, hkv]
        simp [specFilterKeep, Bool.and_comm])

/-- Ceiling division as the table computes it agrees with the closed natural
formula when the page size is positive. -/
theorem pageCount_eq (total pageSize : Nat) (h : 0 < pageSize) :
    pageCount total pageSize = ((total + pageSize - 1) / pageSize : Nat) := by
  have hps : (0 : ℚ) < (pageSize : ℚ) := by exact_mod_cast h
  have hdm := Nat.div_add_mod (total + pageSize - 1) pageSize
  have hmod : (total + pageSize - 1) % pageSize < pageSize :=
    Nat.mod_lt _ h
  set n := (total + pageSize - 1) / pageSize with hn
  set r := (total + pageSize - 1) % pageSize with hrdef
  set q := pageSize * n with hq
  have h1 : total ≤ q := by omega
  have h2 : q < total + pageSize := by omega
  have h1Q : (total : ℚ) ≤ (pageSize : ℚ) * (n : ℚ) := by
    have : (total : ℚ) ≤ (q : ℚ) := by exact_mod_cast h1
    simpa [hq] using this
  have h2Q : (pageSize : ℚ) * (n : ℚ) < (total : ℚ) + (pageSize : ℚ) := by
    have : (q : ℚ) < (total : ℚ) + (pageSize : ℚ) := by exact_mod_cast h2
    simpa [hq] using this
  unfold pageCount
  refine Int.ceil_eq_iff.mpr ⟨?_, ?_⟩
  · rw [lt_div_iff₀ hps]
    push_cast
    nlinarith
  · rw [div_le_iff₀ hps]
    push_cast
    nlinarith

/-- C4.  The enhanced table renders, in this fixed order: the filter pass
(keeping exactly the records every non-empty filter entry matches on the
lower-cased textual form of the derived column value), then the sort pass by
the two-way comparator over the derived value of the sorted column, then —
when pagination is configured — the slice to the half-open index range
from `(current - 1) * pageSize` to `current * pageSize` (characterised here
entry by entry and by length); and the displayed page count is
`ceil(total / pageSize)`, which for a positive page size is
`(total + pageSize - 1) / pageSize`. -/
theorem c4_pipeline (V : Type) (columns : List (TableColumn V))
    (toStr : V → String) (ltB gtB : V → V → Bool)
    (filters : List (String × String)) (sortConfig : Option SortConfig)
    (dataSource : List (String → V)) (p : TablePagination)
    (l : List (String → V)) (i : Nat) :
    (processedData columns toStr ltB gtB filters sortConfig dataSource =
      applyTableSort columns ltB gtB sortConfig
        (dataSource.filter (specFilterKeep columns toStr filters))) ∧
    ((paginatedData (some p) l)[i]? =
      if i < p.pageSize then l[(p.current - 1) * p.pageSize + i]? else none) ∧
    ((paginatedData (some p) l).length =
      min p.pageSize (l.length - (p.current - 1) * p.pageSize)) ∧
    (0 < p.pageSize →
      pageCount p.total p.pageSize =
        ((p.total + p.pageSize - 1) / p.pageSize : Nat)) := by
  refine ⟨?_, ?_, ?_, ?_⟩
  · unfold processedData
    rw [applyTableFilters_eq_filter]
  · unfold paginatedData
    rw [List.getElem?_take]
    by_cases hi : i < p.pageSize
    · rw [if_pos hi, if_pos hi, List.getElem?_drop]
    · rw [if_neg hi, if_neg hi]
  · unfold paginatedData
    rw [List.length_take, List.length_drop]
  · exact pageCount_eq p.total p.pageSize

/-- Witness for C4 at the concrete pagination of the spec example:
25 records with page size 10 give 3 pages. -/
theorem c4_pipeline_witness : pageCount 25 10 = 3 := by
  have h := (c4_pipeline Nat [] toString (fun a b => decide (a < b))
    (fun a b => decide (b < a)) [] none [] ⟨3, 10, 25⟩ [] 0).2.2.2 (by decide)
  simpa using h
